import Mathlib

/-!
Verification of the quant-core-engine event pipeline.

Shallow embedding of the C++ sources under src/core/app: the domain model
(order.hpp, position.hpp, risk_limits.hpp, order_status.hpp, the event
structs), the handlers of PositionEngine, RiskEngine, OrderTracker, the two
simulated execution engines, the OrderRoutingThread engine selection, and the
time conversion utilities.  C++ `double` fields are modelled as exact
rationals; the C++ `Timestamp` (std::chrono::system_clock::time_point) is
modelled as an Int tick count at nanosecond resolution, so one millisecond is
1000000 ticks.  Each event handler becomes a pure function from the
component's state and the incoming event to the new state plus the list of
events it publishes, in publish order (bus dispatch is synchronous).
-/

namespace Quant

/-- Side of an order (domain/order.hpp). -/
inductive Side
  | Buy
  | Sell
deriving DecidableEq

/-- Order lifecycle states (domain/order_status.hpp). -/
inductive OrderStatus
  | New
  | PendingNew
  | Accepted
  | PartiallyFilled
  | Filled
  | Canceled
  | Rejected
  | Expired
deriving DecidableEq

/-- Wire-level execution outcome (events/execution_report_event.hpp). -/
inductive ExecutionStatus
  | Accepted
  | Filled
  | Rejected
deriving DecidableEq

/-- domain::Order (domain/order.hpp). -/
structure Order where
  id : Nat
  strategy_id : String
  symbol : String
  side : Side
  quantity : ℚ
  price : ℚ
  status : OrderStatus
  filled_quantity : ℚ
deriving DecidableEq

/-- domain::Position (domain/position.hpp). -/
structure Position where
  symbol : String
  net_quantity : ℚ
  average_price : ℚ
  realized_pnl : ℚ
deriving DecidableEq

/-- domain::RiskLimits (domain/risk_limits.hpp). -/
structure RiskLimits where
  max_position_per_symbol : ℚ
  max_drawdown : ℚ
deriving DecidableEq

/-- OrderEvent (events/order_event.hpp). -/
structure OrderEvent where
  order : Order
  timestamp : Int
  sequence_id : Nat
deriving DecidableEq

/-- OrderUpdateEvent (events/order_update_event.hpp). -/
structure OrderUpdateEvent where
  order : Order
  previous_status : OrderStatus
  timestamp : Int
  sequence_id : Nat
deriving DecidableEq

/-- ExecutionReportEvent (events/execution_report_event.hpp). -/
structure ExecutionReportEvent where
  order_id : Nat
  filled_quantity : ℚ
  fill_price : ℚ
  status : ExecutionStatus
  timestamp : Int
  sequence_id : Nat
deriving DecidableEq

/-- PositionUpdateEvent (events/position_update_event.hpp). -/
structure PositionUpdateEvent where
  position : Position
  timestamp : Int
  sequence_id : Nat
deriving DecidableEq

/-- RiskViolationEvent (events/risk_violation_event.hpp). -/
structure RiskViolationEvent where
  symbol : String
  reason : String
  current_value : ℚ
  limit_value : ℚ
  timestamp : Int
  sequence_id : Nat
deriving DecidableEq

/-- The side enum nested in SignalEvent (events/event_types.hpp). -/
inductive SignalSide
  | Buy
  | Sell
deriving DecidableEq

/-- SignalEvent (events/event_types.hpp). -/
structure SignalEvent where
  strategy_id : String
  symbol : String
  side : SignalSide
  strength : ℚ
  price : ℚ
  timestamp : Int
  sequence_id : Nat
deriving DecidableEq

/-- Finite map abstraction standing for std::map / std::unordered_map. -/
def Map (α β : Type) : Type := α → Option β

/-- The empty map. -/
def Map.empty {α β : Type} : Map α β := fun _ => none

/-- operator[] assignment: insert or overwrite the entry at key k. -/
def Map.insert {α β : Type} [DecidableEq α] (m : Map α β) (k : α) (v : β) :
    Map α β :=
  fun x => if x = k then some v else m x

/-- map::erase on key k. -/
def Map.erase {α β : Type} [DecidableEq α] (m : Map α β) (k : α) : Map α β :=
  fun x => if x = k then none else m x

/-!  ## Time utilities (time/time_utils.hpp)

Timestamp is std::chrono::system_clock::time_point; its tick is the
nanosecond, so converting from milliseconds multiplies by 1000000 and
duration_cast back to milliseconds divides truncating toward zero. -/

/-- ms_to_timestamp (time_utils.hpp lines 46-48). -/
def ms_to_timestamp (ms : Int) : Int := ms * 1000000

/-- timestamp_to_ms (time_utils.hpp lines 63-67): duration_cast truncates
toward zero, which is Int.div. -/
def timestamp_to_ms (tp : Int) : Int := Int.tdiv tp 1000000

/-!  ## PositionEngine (risk/position_engine.cpp) -/

/-- PositionEngine::OrderInfo: the {symbol, side} pair cached per order id. -/
structure OrderInfo where
  symbol : String
  side : Side
deriving DecidableEq

/-- The PositionEngine state: the positions map and the transient order
cache (position_engine.hpp). -/
structure PositionEngineState where
  positions : Map String Position
  order_cache : Map Nat OrderInfo

/-- Events the PositionEngine fill handler publishes, in publish order. -/
inductive PosEvent
  | update (e : PositionUpdateEvent)
  | violation (e : RiskViolationEvent)
deriving DecidableEq

/-- Sequence id carried by a PositionEngine output event. -/
def PosEvent.seqid : PosEvent → Nat
  | .update e => e.sequence_id
  | .violation e => e.sequence_id

/-- PositionEngine::applyFill (position_engine.cpp lines 146-211): the
three-case fill arithmetic. -/
def applyFill (pos : Position) (signed_fill_qty fill_price : ℚ) : Position :=
  let current_qty := pos.net_quantity
  if current_qty = 0 then
    { pos with net_quantity := signed_fill_qty, average_price := fill_price }
  else if (current_qty > 0 ∧ signed_fill_qty > 0) ∨
          (current_qty < 0 ∧ signed_fill_qty < 0) then
    let new_total := current_qty + signed_fill_qty
    { pos with
      average_price :=
        (current_qty * pos.average_price + signed_fill_qty * fill_price) /
          new_total,
      net_quantity := new_total }
  else
    let abs_current := |current_qty|
    let abs_fill := |signed_fill_qty|
    let direction_sign : ℚ := if current_qty > 0 then 1 else -1
    if abs_fill ≤ abs_current then
      { pos with
        realized_pnl := pos.realized_pnl +
          abs_fill * (fill_price - pos.average_price) * direction_sign,
        net_quantity := current_qty + signed_fill_qty }
    else
      let new_direction_sign : ℚ := if signed_fill_qty > 0 then 1 else -1
      { pos with
        realized_pnl := pos.realized_pnl +
          abs_current * (fill_price - pos.average_price) * direction_sign,
        net_quantity := new_direction_sign * (abs_fill - abs_current),
        average_price := fill_price }

/-- PositionEngine::onOrder (position_engine.cpp lines 68-71): cache
{order id → symbol, side}. -/
def PositionEngine.onOrder (s : PositionEngineState) (event : OrderEvent) :
    PositionEngineState :=
  { s with
    order_cache := s.order_cache.insert event.order.id
      { symbol := event.order.symbol, side := event.order.side } }

/-- The signed fill quantity onFill computes: positive for Buy, negative
for Sell (position_engine.cpp lines 96-98). -/
def fillSignedQty (info : OrderInfo) (event : ExecutionReportEvent) : ℚ :=
  if info.side = Side.Buy then event.filled_quantity
  else -event.filled_quantity

/-- The position onFill mutates: the map entry, default-constructed by
operator[] when absent, with its symbol set when empty
(position_engine.cpp lines 110-113). -/
def fillBasePosition (s : PositionEngineState) (info : OrderInfo) :
    Position :=
  match s.positions info.symbol with
  | some p => if p.symbol = "" then { p with symbol := info.symbol } else p
  | none =>
    { symbol := info.symbol, net_quantity := 0, average_price := 0,
      realized_pnl := 0 }

/-- The position after onFill applies the fill
(position_engine.cpp line 115). -/
def fillNewPosition (s : PositionEngineState) (event : ExecutionReportEvent)
    (info : OrderInfo) : Position :=
  applyFill (fillBasePosition s info) (fillSignedQty info event)
    event.fill_price

/-- PositionEngine::onFill (position_engine.cpp lines 76-141): apply a
Filled report to the position, publish the update and, when realized PnL is
below the drawdown floor, a violation after it; then erase the cache entry. -/
def PositionEngine.onFill (limits : RiskLimits) (s : PositionEngineState)
    (event : ExecutionReportEvent) : PositionEngineState × List PosEvent :=
  if event.status ≠ ExecutionStatus.Filled then (s, [])
  else
    match s.order_cache event.order_id with
    | none => (s, [])
    | some info =>
      ({ positions := s.positions.insert info.symbol
           (fillNewPosition s event info),
         order_cache := s.order_cache.erase event.order_id },
       if (fillNewPosition s event info).realized_pnl <
           limits.max_drawdown then
         [PosEvent.update
            { position := fillNewPosition s event info,
              timestamp := event.timestamp,
              sequence_id := event.sequence_id },
          PosEvent.violation
            { symbol := info.symbol, reason := "Max Drawdown Exceeded",
              current_value := (fillNewPosition s event info).realized_pnl,
              limit_value := limits.max_drawdown,
              timestamp := event.timestamp,
              sequence_id := event.sequence_id }]
       else
         [PosEvent.update
            { position := fillNewPosition s event info,
              timestamp := event.timestamp,
              sequence_id := event.sequence_id }])

/-- Inputs the PositionEngine subscribes to on the risk bus, used to trace
its evolution across a run. -/
inductive PosOp
  | order (e : OrderEvent)
  | report (e : ExecutionReportEvent)

/-- One PositionEngine bus callback: dispatch a subscribed event. -/
def PositionEngine.step (limits : RiskLimits) (s : PositionEngineState) :
    PosOp → PositionEngineState
  | .order e => PositionEngine.onOrder s e
  | .report e => (PositionEngine.onFill limits s e).1

/-- Run a list of PositionEngine inputs from a state. -/
def PositionEngine.runOps (limits : RiskLimits) (s : PositionEngineState) :
    List PosOp → PositionEngineState
  | [] => s
  | op :: rest =>
    PositionEngine.runOps limits (PositionEngine.step limits s op) rest

/-!  ## OrderTracker (risk/order_tracker.cpp) -/

/-- The OrderTracker state: the active-order map (order_tracker.hpp). -/
structure OrderTrackerState where
  active_orders : Map Nat Order

/-- OrderTracker::transitionStatus (order_tracker.cpp lines 30-63). -/
def transitionStatus : OrderStatus → OrderStatus → Bool
  | .New, next =>
    next = .PendingNew ∨ next = .Accepted ∨ next = .Rejected
  | .PendingNew, next => next = .Accepted ∨ next = .Rejected
  | .Accepted, next =>
    next = .PartiallyFilled ∨ next = .Filled ∨ next = .Canceled ∨
      next = .Rejected
  | .PartiallyFilled, next =>
    next = .PartiallyFilled ∨ next = .Filled ∨ next = .Canceled
  | .Filled, _ => false
  | .Canceled, _ => false
  | .Rejected, _ => false
  | .Expired, _ => false

/-- OrderTracker::isTerminal (order_tracker.cpp lines 68-74). -/
def isTerminal (status : OrderStatus) : Bool :=
  status = OrderStatus.Filled ∨ status = OrderStatus.Canceled ∨
    status = OrderStatus.Rejected ∨ status = OrderStatus.Expired

/-- The switch mapping ExecutionStatus to OrderStatus
(order_tracker.cpp lines 109-119). -/
def mapExecStatus : ExecutionStatus → OrderStatus
  | .Accepted => .Accepted
  | .Filled => .Filled
  | .Rejected => .Rejected

/-- OrderTracker::onOrder (order_tracker.cpp lines 79-91): store the order
as carried by the event and publish the initial snapshot with
previous_status = New. -/
def OrderTracker.onOrder (s : OrderTrackerState) (event : OrderEvent) :
    OrderTrackerState × List OrderUpdateEvent :=
  ({ active_orders := s.active_orders.insert event.order.id event.order },
   [{ order := event.order, previous_status := OrderStatus.New,
      timestamp := event.timestamp, sequence_id := event.sequence_id }])

/-- The committed order after a legal transition: status becomes the mapped
status and, when it is Filled, filled_quantity is overwritten with the
report's filled_quantity (order_tracker.cpp lines 129-133). -/
def OrderTracker.updatedOrder (order : Order)
    (event : ExecutionReportEvent) : Order :=
  if mapExecStatus event.status = OrderStatus.Filled then
    { order with status := mapExecStatus event.status,
                 filled_quantity := event.filled_quantity }
  else { order with status := mapExecStatus event.status }

/-- OrderTracker::onExecutionReport (order_tracker.cpp lines 96-146):
advance the lifecycle state, publish the snapshot, erase terminal orders. -/
def OrderTracker.onExecutionReport (s : OrderTrackerState)
    (event : ExecutionReportEvent) :
    OrderTrackerState × List OrderUpdateEvent :=
  match s.active_orders event.order_id with
  | none => (s, [])
  | some order =>
    if transitionStatus order.status (mapExecStatus event.status) then
      if isTerminal (mapExecStatus event.status) then
        ({ active_orders :=
             (s.active_orders.insert event.order_id
               (OrderTracker.updatedOrder order event)).erase
               event.order_id },
         [{ order := OrderTracker.updatedOrder order event,
            previous_status := order.status,
            timestamp := event.timestamp,
            sequence_id := event.sequence_id }])
      else
        ({ active_orders := s.active_orders.insert event.order_id
             (OrderTracker.updatedOrder order event) },
         [{ order := OrderTracker.updatedOrder order event,
            previous_status := order.status,
            timestamp := event.timestamp,
            sequence_id := event.sequence_id }])
    else (s, [])

/-!  ## RiskEngine (risk/risk_engine.cpp) -/

/-- The RiskEngine state: the atomic kill switch together with the counter
of the OrderIdGenerator it draws ids from (concurrent/order_id_generator.hpp,
counter starts at 1). -/
structure RiskEngineState where
  halt_trading : Bool
  next_order_id : Nat

/-- PositionEngine::position (position_engine.cpp lines 37-42): read-only
lookup used by the RiskEngine pre-trade check. -/
def PositionEngine.position (s : PositionEngineState) (symbol : String) :
    Option Position :=
  s.positions symbol

/-- The current absolute net quantity the RiskEngine computes for a symbol:
|pos.net_quantity| when the position exists, otherwise 0
(risk_engine.cpp lines 43-44). -/
def currentAbsNet (pes : PositionEngineState) (symbol : String) : ℚ :=
  match PositionEngine.position pes symbol with
  | some p => |p.net_quantity|
  | none => 0

/-- RiskEngine::onSignal (risk_engine.cpp lines 34-73): drop when halted or
when the position cap would be exceeded, otherwise build and publish one
OrderEvent.  `now` models std::chrono::system_clock::now() used for the
OrderEvent timestamp. -/
def RiskEngine.onSignal (limits : RiskLimits) (pes : PositionEngineState)
    (s : RiskEngineState) (now : Int) (event : SignalEvent) :
    RiskEngineState × List OrderEvent :=
  if s.halt_trading then (s, [])
  else if currentAbsNet pes event.symbol + 1 >
      limits.max_position_per_symbol then (s, [])
  else
    ({ s with next_order_id := s.next_order_id + 1 },
     [{ order :=
          { id := s.next_order_id, strategy_id := event.strategy_id,
            symbol := event.symbol,
            side := if event.side = SignalSide.Buy then Side.Buy
                    else Side.Sell,
            quantity := 1, price := event.price,
            status := OrderStatus.New, filled_quantity := 0 },
        timestamp := now, sequence_id := event.sequence_id }])

/-- RiskEngine::onRiskViolation (risk_engine.cpp lines 78-85): latch the
kill switch. -/
def RiskEngine.onRiskViolation (s : RiskEngineState)
    (_event : RiskViolationEvent) : RiskEngineState :=
  { s with halt_trading := true }

/-- Modelled from the spec: RiskEngine::haltTrading is declared in
risk/risk_engine.hpp but its body is not among the sources; the header
contract and spec section 4.7 both state that it sets halt_trading_ to
true (the programmatic equivalent of receiving a RiskViolationEvent). -/
def RiskEngine.haltTrading (s : RiskEngineState) : RiskEngineState :=
  { s with halt_trading := true }

/-- Inputs the RiskEngine can process: a signal (with the wall-clock value
read while handling it), a risk violation, or an operator halt command. -/
inductive RiskOp
  | signal (now : Int) (e : SignalEvent)
  | violation (e : RiskViolationEvent)
  | halt

/-- One RiskEngine callback dispatch; returns the new state and the
OrderEvents published. -/
def RiskEngine.step (limits : RiskLimits) (pes : PositionEngineState)
    (s : RiskEngineState) : RiskOp → RiskEngineState × List OrderEvent
  | .signal now e => RiskEngine.onSignal limits pes s now e
  | .violation e => (RiskEngine.onRiskViolation s e, [])
  | .halt => (RiskEngine.haltTrading s, [])

/-- Run a list of RiskEngine inputs, concatenating all published
OrderEvents. -/
def RiskEngine.runOps (limits : RiskLimits) (pes : PositionEngineState)
    (s : RiskEngineState) : List RiskOp → RiskEngineState × List OrderEvent
  | [] => (s, [])
  | op :: rest =>
    let p := RiskEngine.step limits pes s op
    let q := RiskEngine.runOps limits pes p.1 rest
    (q.1, p.2 ++ q.2)

/-!  ## Execution engines (execution/execution_engine.cpp,
execution/mock_execution_engine.cpp) and the OrderRoutingThread engine
selection (network/order_routing_thread.cpp lines 24-44). -/

/-- ExecutionEngine::onOrder (execution_engine.cpp lines 21-46): publish an
Accepted report then a Filled report; `now` models
std::chrono::system_clock::now(). -/
def ExecutionEngine.onOrder (now : Int) (event : OrderEvent) :
    List ExecutionReportEvent :=
  [{ order_id := event.order.id, filled_quantity := 0, fill_price := 0,
     status := ExecutionStatus.Accepted, timestamp := now,
     sequence_id := event.sequence_id },
   { order_id := event.order.id, filled_quantity := event.order.quantity,
     fill_price := event.order.price, status := ExecutionStatus.Filled,
     timestamp := now, sequence_id := event.sequence_id }]

/-- MockExecutionEngine::onOrder (mock_execution_engine.cpp lines 29-55):
publish a single Filled report, timestamped from the injected time
provider (`now_ms` models time_provider_.now_ms()). -/
def MockExecutionEngine.onOrder (now_ms : Int) (event : OrderEvent) :
    List ExecutionReportEvent :=
  [{ order_id := event.order.id, filled_quantity := event.order.quantity,
     fill_price := event.order.price, status := ExecutionStatus.Filled,
     timestamp := ms_to_timestamp now_ms,
     sequence_id := event.sequence_id }]

/-- The reports published on the order-routing bus for one OrderEvent by
the execution engine that OrderRoutingThread::start constructs: a
MockExecutionEngine when a time provider was supplied, an ExecutionEngine
otherwise (order_routing_thread.cpp lines 31-37). -/
def OrderRoutingThread.engineReports (has_time_provider : Bool)
    (ts now_ms : Int) (event : OrderEvent) : List ExecutionReportEvent :=
  if has_time_provider then MockExecutionEngine.onOrder now_ms event
  else ExecutionEngine.onOrder ts event

/-!  ## Statement-level definitions and sample inputs -/

/-- The sign function used by the specification's fill arithmetic. -/
def sgn (x : ℚ) : ℚ := if 0 < x then 1 else if x < 0 then -1 else 0

/-- The legal-transition table exactly as the specification enumerates it
(spec section 4.5): New to PendingNew, Accepted or Rejected; PendingNew to
Accepted or Rejected; Accepted to PartiallyFilled, Filled, Canceled or
Rejected; PartiallyFilled to PartiallyFilled, Filled or Canceled; the
terminal states have no outgoing edges. -/
def specLegalEdges : List (OrderStatus × OrderStatus) :=
  [(.New, .PendingNew), (.New, .Accepted), (.New, .Rejected),
   (.PendingNew, .Accepted), (.PendingNew, .Rejected),
   (.Accepted, .PartiallyFilled), (.Accepted, .Filled),
   (.Accepted, .Canceled), (.Accepted, .Rejected),
   (.PartiallyFilled, .PartiallyFilled), (.PartiallyFilled, .Filled),
   (.PartiallyFilled, .Canceled)]

/-- The default risk limits (domain/risk_limits.hpp). -/
def defaultLimits : RiskLimits :=
  { max_position_per_symbol := 1000, max_drawdown := -500 }

/-- A fresh PositionEngine state: both maps empty. -/
def emptyPES : PositionEngineState :=
  { positions := Map.empty, order_cache := Map.empty }

/-- A concrete order as the RiskEngine builds them. -/
def sampleOrder : Order :=
  { id := 7, strategy_id := "s1", symbol := "AAPL", side := Side.Buy,
    quantity := 1, price := 100, status := OrderStatus.New,
    filled_quantity := 0 }

/-- A concrete OrderEvent wrapping sampleOrder. -/
def sampleOrderEvent : OrderEvent :=
  { order := sampleOrder, timestamp := 0, sequence_id := 42 }

/-- A concrete order whose status is not New and whose filled_quantity is
not 0, as an exchange could report it during reconciliation. -/
def hydratedOrder : Order :=
  { id := 9, strategy_id := "s2", symbol := "MSFT", side := Side.Sell,
    quantity := 4, price := 50, status := OrderStatus.Accepted,
    filled_quantity := 2 }

/-- A concrete SignalEvent. -/
def sampleSignal : SignalEvent :=
  { strategy_id := "s1", symbol := "AAPL", side := SignalSide.Buy,
    strength := 1, price := 150, timestamp := 0, sequence_id := 5 }

/-- A PositionEngine state holding a long position of 10 AAPL at average
price 100 and a cached Sell order with id 1. -/
def samplePES : PositionEngineState :=
  { positions := Map.insert Map.empty "AAPL"
      { symbol := "AAPL", net_quantity := 10, average_price := 100,
        realized_pnl := 0 },
    order_cache := Map.insert Map.empty 1
      { symbol := "AAPL", side := Side.Sell } }

/-- A Filled report for the cached order id 1: selling 10 at 40 against an
average price of 100 realizes a loss of 600, below the -500 floor. -/
def sampleFillReport : ExecutionReportEvent :=
  { order_id := 1, filled_quantity := 10, fill_price := 40,
    status := ExecutionStatus.Filled, timestamp := 0, sequence_id := 3 }

/-!  ## Theorems -/

/-- C9: for every non-negative 64-bit integer x representable in the target
time type (x ticks fit in a signed 64-bit nanosecond count), converting x to
a timestamp and back yields x. -/
theorem timestamp_roundtrip (x : Int) (h1 : 0 ≤ x)
    (h2 : x * 1000000 ≤ 2 ^ 63 - 1) :
    timestamp_to_ms (ms_to_timestamp x) = x := by
  unfold timestamp_to_ms ms_to_timestamp
  exact Int.mul_tdiv_cancel x (by norm_num)

/-- Witness for C9 at x = 1700000000000 epoch milliseconds. -/
theorem timestamp_roundtrip_witness :
    (0 : Int) ≤ 1700000000000 ∧
    (1700000000000 : Int) * 1000000 ≤ 2 ^ 63 - 1 ∧
    timestamp_to_ms (ms_to_timestamp 1700000000000) = 1700000000000 :=
  ⟨by norm_num, by norm_num,
    timestamp_roundtrip 1700000000000 (by norm_num) (by norm_num)⟩

/-- C1 counterexample: when the order-routing thread is constructed with a
time provider — as TradingEngine::start always does — its start constructs a
MockExecutionEngine, and handling a concrete OrderEvent publishes a single
ExecutionReportEvent with status Filled, not two reports starting with
Accepted. -/
theorem mock_routing_single_report :
    (OrderRoutingThread.engineReports true 0 0 sampleOrderEvent).length ≠ 2 ∧
    (OrderRoutingThread.engineReports true 0 0 sampleOrderEvent).map
      (fun r => r.status) = [ExecutionStatus.Filled] := by
  constructor
  · decide
  · rfl

/-- C1 amended: the reports the constructed engine publishes for an
OrderEvent, by construction mode.  With a time provider (the
MockExecutionEngine path) exactly one report is published, with status
Filled, filled_quantity = order.quantity and fill_price = order.price;
without one (the ExecutionEngine path) exactly two reports are published in
order: Accepted with filled_quantity 0 and fill_price 0, then Filled with
filled_quantity = order.quantity and fill_price = order.price; every report
carries the order's id and the event's sequence id. -/
theorem routing_engine_reports (ts now_ms : Int) (e : OrderEvent) :
    OrderRoutingThread.engineReports true ts now_ms e =
      [{ order_id := e.order.id, filled_quantity := e.order.quantity,
         fill_price := e.order.price, status := ExecutionStatus.Filled,
         timestamp := ms_to_timestamp now_ms,
         sequence_id := e.sequence_id }] ∧
    OrderRoutingThread.engineReports false ts now_ms e =
      [{ order_id := e.order.id, filled_quantity := 0, fill_price := 0,
         status := ExecutionStatus.Accepted, timestamp := ts,
         sequence_id := e.sequence_id },
       { order_id := e.order.id, filled_quantity := e.order.quantity,
         fill_price := e.order.price, status := ExecutionStatus.Filled,
         timestamp := ts, sequence_id := e.sequence_id }] :=
  ⟨rfl, rfl⟩

/-- C7 counterexample: OrderTracker::onOrder stores the order exactly as the
event carries it; for an OrderEvent wrapping an order whose status is
Accepted and whose filled_quantity is 2, the inserted entry does not have
status New and filled_quantity 0. -/
theorem onOrder_keeps_incoming_status :
    ((OrderTracker.onOrder { active_orders := Map.empty }
        { order := hydratedOrder, timestamp := 0,
          sequence_id := 1 }).1.active_orders 9) = some hydratedOrder ∧
    hydratedOrder.status ≠ OrderStatus.New ∧
    hydratedOrder.filled_quantity ≠ 0 := by
  refine ⟨rfl, by decide, by decide⟩

/-- C7 amended: on every OrderEvent the tracker inserts the wrapped order
into its active-order map exactly as carried by the event — preserving the
event's status and filled_quantity rather than forcing New and 0 (orders
built by the risk engine already carry status New and filled_quantity 0) —
and publishes exactly one OrderUpdateEvent whose previous_status is New and
whose order snapshot equals the inserted entry. -/
theorem onOrder_insert_snapshot (s : OrderTrackerState) (e : OrderEvent) :
    (OrderTracker.onOrder s e).1.active_orders e.order.id = some e.order ∧
    (OrderTracker.onOrder s e).2 =
      [{ order := e.order, previous_status := OrderStatus.New,
         timestamp := e.timestamp, sequence_id := e.sequence_id }] := by
  constructor
  · simp [OrderTracker.onOrder, Map.insert]
  · rfl

/-- Once the kill switch is set, any sequence of RiskEngine inputs keeps it
set and publishes no OrderEvent. -/
theorem runOps_halted (limits : RiskLimits) (pes : PositionEngineState) :
    ∀ (ops : List RiskOp) (s : RiskEngineState),
      s.halt_trading = true →
      (RiskEngine.runOps limits pes s ops).1.halt_trading = true ∧
      (RiskEngine.runOps limits pes s ops).2 = [] := by
  intro ops
  induction ops with
  | nil => intro s h; exact ⟨h, rfl⟩
  | cons op rest ih =>
    intro s h
    cases op with
    | signal now e =>
      have hs : RiskEngine.onSignal limits pes s now e = (s, []) := by
        unfold RiskEngine.onSignal
        rw [h]
        simp
      simp only [RiskEngine.runOps, RiskEngine.step, hs]
      obtain ⟨a, b⟩ := ih s h
      exact ⟨a, by simpa using b⟩
    | violation e =>
      simp only [RiskEngine.runOps, RiskEngine.step]
      obtain ⟨a, b⟩ := ih (RiskEngine.onRiskViolation s e) rfl
      exact ⟨a, by simpa using b⟩
    | halt =>
      simp only [RiskEngine.runOps, RiskEngine.step]
      obtain ⟨a, b⟩ := ih (RiskEngine.haltTrading s) rfl
      exact ⟨a, by simpa using b⟩

/-- C5: after the RiskEngine handles any RiskViolationEvent (or haltTrading
is called), every subsequent input sequence — signals, further violations,
halts — publishes no OrderEvent, and the kill switch remains set throughout
the run. -/
theorem kill_switch_latch (limits : RiskLimits) (pes : PositionEngineState)
    (s : RiskEngineState) (v : RiskViolationEvent) (ops : List RiskOp) :
    (RiskEngine.runOps limits pes (RiskEngine.onRiskViolation s v)
        ops).1.halt_trading = true ∧
    (RiskEngine.runOps limits pes (RiskEngine.onRiskViolation s v)
        ops).2 = [] ∧
    (RiskEngine.runOps limits pes (RiskEngine.haltTrading s)
        ops).1.halt_trading = true ∧
    (RiskEngine.runOps limits pes (RiskEngine.haltTrading s) ops).2 = [] := by
  obtain ⟨a, b⟩ :=
    runOps_halted limits pes ops (RiskEngine.onRiskViolation s v) rfl
  obtain ⟨c, d⟩ := runOps_halted limits pes ops (RiskEngine.haltTrading s) rfl
  exact ⟨a, b, c, d⟩

/-- C2: applyFill implements the specification's three-case arithmetic for
every position p, non-zero signed fill quantity q and price pr: flat opens
at net = q and avg = pr; a same-sign fill accumulates the weighted average;
an opposite-sign fill within the position realizes
closed times (pr - avg) times sign(net) and keeps avg; an opposite-sign fill
crossing zero first closes the whole position, then opens the remainder
sign(q) times (the absolute fill minus the absolute net) at avg = pr. -/
theorem applyFill_three_case (p : Position) (q pr : ℚ) (hq : q ≠ 0) :
    (p.net_quantity = 0 →
      applyFill p q pr =
        { p with net_quantity := q, average_price := pr }) ∧
    ((p.net_quantity > 0 ∧ q > 0) ∨ (p.net_quantity < 0 ∧ q < 0) →
      applyFill p q pr =
        { p with
          net_quantity := p.net_quantity + q,
          average_price :=
            (p.net_quantity * p.average_price + q * pr) /
              (p.net_quantity + q) }) ∧
    ((p.net_quantity > 0 ∧ q < 0) ∨ (p.net_quantity < 0 ∧ q > 0) →
      (|q| ≤ |p.net_quantity| →
        applyFill p q pr =
          { p with
            realized_pnl := p.realized_pnl +
              |q| * (pr - p.average_price) * sgn p.net_quantity,
            net_quantity := p.net_quantity + q }) ∧
      (|q| > |p.net_quantity| →
        applyFill p q pr =
          { p with
            realized_pnl := p.realized_pnl +
              |p.net_quantity| * (pr - p.average_price) *
                sgn p.net_quantity,
            net_quantity := sgn q * (|q| - |p.net_quantity|),
            average_price := pr })) := by
  refine ⟨?_, ?_, ?_⟩
  · intro h0
    simp [applyFill, h0]
  · intro hs
    have hne : p.net_quantity ≠ 0 := by
      rcases hs with ⟨h1, _⟩ | ⟨h1, _⟩
      · exact ne_of_gt h1
      · exact ne_of_lt h1
    unfold applyFill
    simp only []
    rw [if_neg hne, if_pos hs]
  · intro ho
    have hne : p.net_quantity ≠ 0 := by
      rcases ho with ⟨h1, _⟩ | ⟨h1, _⟩
      · exact ne_of_gt h1
      · exact ne_of_lt h1
    have hnot : ¬ ((p.net_quantity > 0 ∧ q > 0) ∨
        (p.net_quantity < 0 ∧ q < 0)) := by
      rcases ho with ⟨h1, h2⟩ | ⟨h1, h2⟩ <;>
        rintro (⟨g1, g2⟩ | ⟨g1, g2⟩) <;> linarith
    have hds : (if p.net_quantity > 0 then (1 : ℚ) else -1) =
        sgn p.net_quantity := by
      unfold sgn
      rcases ho with ⟨h1, _⟩ | ⟨h1, _⟩
      · rw [if_pos h1, if_pos h1]
      · rw [if_neg (by linarith), if_neg (by linarith), if_pos h1]
    have hqs : (if q > 0 then (1 : ℚ) else -1) = sgn q := by
      unfold sgn
      rcases ho with ⟨_, h2⟩ | ⟨_, h2⟩
      · rw [if_neg (by linarith), if_neg (by linarith), if_pos h2]
      · rw [if_pos h2, if_pos h2]
    constructor
    · intro hle
      unfold applyFill
      simp only []
      rw [if_neg hne, if_neg hnot, if_pos hle, hds]
    · intro hgt
      unfold applyFill
      simp only []
      rw [if_neg hne, if_neg hnot, if_neg (not_le.mpr hgt), hds, hqs]

/-- Witness for C2: partially closing a long position of 10 at average 100
by selling 3 at 120 realizes 60 and leaves net 7 at average 100 (spec
scenario 3). -/
theorem applyFill_three_case_witness :
    applyFill
        { symbol := "AAPL", net_quantity := 10, average_price := 100,
          realized_pnl := 0 } (-3) 120 =
      { symbol := "AAPL", net_quantity := 7, average_price := 100,
        realized_pnl := 60 } := by
  have h := applyFill_three_case
    { symbol := "AAPL", net_quantity := 10, average_price := 100,
      realized_pnl := 0 } (-3) 120 (by norm_num)
  have h2 := (h.2.2 (Or.inl (by norm_num))).1 (by
    show |(-3 : ℚ)| ≤ |(10 : ℚ)|
    rw [abs_neg]
    simp [abs_of_nonneg]
    norm_num)
  have hsgn : sgn 10 = 1 := by
    unfold sgn
    rw [if_pos (by norm_num)]
  rw [h2]
  simp only [hsgn]
  rw [Position.mk.injEq]
  norm_num

/-- C4: while the kill switch is clear, a SignalEvent produces no OrderEvent
when the current absolute net for its symbol plus 1 strictly exceeds the
per-symbol cap (an absent position counting as 0), and otherwise —
including when the sum hits the cap exactly — produces exactly one
OrderEvent whose order has the generator's next id, the signal's
strategy_id, symbol and price, the mapped side, quantity 1, status New and
filled_quantity 0. -/
theorem onSignal_position_check (limits : RiskLimits)
    (pes : PositionEngineState) (s : RiskEngineState) (now : Int)
    (e : SignalEvent) (hh : s.halt_trading = false) :
    (currentAbsNet pes e.symbol + 1 > limits.max_position_per_symbol →
      (RiskEngine.onSignal limits pes s now e).2 = []) ∧
    (¬ (currentAbsNet pes e.symbol + 1 > limits.max_position_per_symbol) →
      (RiskEngine.onSignal limits pes s now e).2 =
        [{ order :=
             { id := s.next_order_id, strategy_id := e.strategy_id,
               symbol := e.symbol,
               side := if e.side = SignalSide.Buy then Side.Buy
                       else Side.Sell,
               quantity := 1, price := e.price, status := OrderStatus.New,
               filled_quantity := 0 },
           timestamp := now, sequence_id := e.sequence_id }]) := by
  constructor
  · intro hgt
    unfold RiskEngine.onSignal
    rw [hh]
    simp only [Bool.false_eq_true, if_false]
    rw [if_pos hgt]
  · intro hng
    unfold RiskEngine.onSignal
    rw [hh]
    simp only [Bool.false_eq_true, if_false]
    rw [if_neg hng]

/-- Witness for C4: from an empty position book with the default limits and
the generator at 1, sampleSignal passes the check and yields exactly the
order the claim describes. -/
theorem onSignal_position_check_witness :
    (RiskEngine.onSignal defaultLimits emptyPES
        { halt_trading := false, next_order_id := 1 } 0 sampleSignal).2 =
      [{ order :=
           { id := 1, strategy_id := "s1", symbol := "AAPL",
             side := Side.Buy, quantity := 1, price := 150,
             status := OrderStatus.New, filled_quantity := 0 },
         timestamp := 0, sequence_id := 5 }] := by
  have h := onSignal_position_check defaultLimits emptyPES
    { halt_trading := false, next_order_id := 1 } 0 sampleSignal rfl
  have hcap : ¬ (currentAbsNet emptyPES sampleSignal.symbol + 1 >
      defaultLimits.max_position_per_symbol) := by
    unfold currentAbsNet PositionEngine.position emptyPES Map.empty
    norm_num [defaultLimits]
  have h2 := h.2 hcap
  rw [h2]
  rfl

/-- The events onFill publishes for a Filled report with a cached order id:
the update, followed by the violation exactly when the drawdown floor is
breached. -/
theorem onFill_publishes (limits : RiskLimits)
    (s : PositionEngineState) (e : ExecutionReportEvent) (info : OrderInfo)
    (h1 : e.status = ExecutionStatus.Filled)
    (h2 : s.order_cache e.order_id = some info) :
    (PositionEngine.onFill limits s e).2 =
      (if (fillNewPosition s e info).realized_pnl < limits.max_drawdown then
        [PosEvent.update
           { position := fillNewPosition s e info, timestamp := e.timestamp,
             sequence_id := e.sequence_id },
         PosEvent.violation
           { symbol := info.symbol, reason := "Max Drawdown Exceeded",
             current_value := (fillNewPosition s e info).realized_pnl,
             limit_value := limits.max_drawdown,
             timestamp := e.timestamp, sequence_id := e.sequence_id }]
       else
        [PosEvent.update
           { position := fillNewPosition s e info, timestamp := e.timestamp,
             sequence_id := e.sequence_id }]) := by
  unfold PositionEngine.onFill
  split
  · next h => exact absurd h1 h
  · rw [h2]

/-- C3: for a Filled report whose order id is cached, onFill publishes the
position update, immediately followed by a RiskViolationEvent with the
cached symbol, reason Max Drawdown Exceeded, current_value equal to the
updated realized PnL and limit_value equal to max_drawdown, exactly when
the post-fill realized PnL is strictly below max_drawdown; otherwise the
update is the only event published. -/
theorem onFill_drawdown_violation (limits : RiskLimits)
    (s : PositionEngineState) (e : ExecutionReportEvent) (info : OrderInfo)
    (h1 : e.status = ExecutionStatus.Filled)
    (h2 : s.order_cache e.order_id = some info) :
    (PositionEngine.onFill limits s e).2 =
      (if (fillNewPosition s e info).realized_pnl < limits.max_drawdown then
        [PosEvent.update
           { position := fillNewPosition s e info, timestamp := e.timestamp,
             sequence_id := e.sequence_id },
         PosEvent.violation
           { symbol := info.symbol, reason := "Max Drawdown Exceeded",
             current_value := (fillNewPosition s e info).realized_pnl,
             limit_value := limits.max_drawdown,
             timestamp := e.timestamp, sequence_id := e.sequence_id }]
       else
        [PosEvent.update
           { position := fillNewPosition s e info, timestamp := e.timestamp,
             sequence_id := e.sequence_id }]) :=
  onFill_publishes limits s e info h1 h2

/-- Witness for C3: selling the cached order of 10 AAPL at 40 against an
average of 100 realizes -600, below the -500 floor, so the violation is
published after the update. -/
theorem onFill_drawdown_violation_witness :
    (PositionEngine.onFill defaultLimits samplePES sampleFillReport).2 =
      [PosEvent.update
         { position :=
             { symbol := "AAPL", net_quantity := 0, average_price := 100,
               realized_pnl := -600 },
           timestamp := 0, sequence_id := 3 },
       PosEvent.violation
         { symbol := "AAPL", reason := "Max Drawdown Exceeded",
           current_value := -600, limit_value := -500,
           timestamp := 0, sequence_id := 3 }] := by
  have h := onFill_drawdown_violation defaultLimits samplePES sampleFillReport
    { symbol := "AAPL", side := Side.Sell } rfl rfl
  have hbase : fillBasePosition samplePES
      { symbol := "AAPL", side := Side.Sell } =
      { symbol := "AAPL", net_quantity := 10, average_price := 100,
        realized_pnl := 0 } := rfl
  have hqty : fillSignedQty { symbol := "AAPL", side := Side.Sell }
      sampleFillReport = -10 := rfl
  have hpx : sampleFillReport.fill_price = 40 := rfl
  have hpos : fillNewPosition samplePES sampleFillReport
      { symbol := "AAPL", side := Side.Sell } =
      { symbol := "AAPL", net_quantity := 0, average_price := 100,
        realized_pnl := -600 } := by
    unfold fillNewPosition
    rw [hbase, hqty, hpx]
    unfold applyFill
    norm_num [Position.mk.injEq]
  rw [h, hpos]
  norm_num [defaultLimits, sampleFillReport]

/-- Every pair the code's transition check accepts is an edge of the
specification's legal-transition table. -/
theorem transition_in_edges (a b : OrderStatus)
    (h : transitionStatus a b = true) : (a, b) ∈ specLegalEdges := by
  cases a <;> cases b <;> simp_all [transitionStatus, specLegalEdges]

/-- The committed order's status is the mapped report status. -/
theorem updatedOrder_status (order : Order) (event : ExecutionReportEvent) :
    (OrderTracker.updatedOrder order event).status =
      mapExecStatus event.status := by
  unfold OrderTracker.updatedOrder
  split <;> rfl

/-- C6: every OrderUpdateEvent the tracker publishes either has a
(previous_status, status) pair that is an edge of the legal-transition
table, or is the initial admission published from an OrderEvent with
previous_status = New. -/
theorem order_update_legal_transition (s : OrderTrackerState)
    (oe : OrderEvent) (re : ExecutionReportEvent) (u : OrderUpdateEvent) :
    (u ∈ (OrderTracker.onExecutionReport s re).2 →
      (u.previous_status, u.order.status) ∈ specLegalEdges) ∧
    (u ∈ (OrderTracker.onOrder s oe).2 →
      u.previous_status = OrderStatus.New) := by
  constructor
  · intro hu
    unfold OrderTracker.onExecutionReport at hu
    split at hu
    · simp at hu
    · next order heq =>
      split at hu
      · next ht =>
        split at hu <;>
        · simp at hu
          subst hu
          show (order.status,
            (OrderTracker.updatedOrder order re).status) ∈ specLegalEdges
          rw [updatedOrder_status]
          exact transition_in_edges _ _ ht
      · simp at hu
  · intro hu
    unfold OrderTracker.onOrder at hu
    simp at hu
    subst hu
    rfl

/-- Witness for C6: a concrete Accepted report against an active New order
yields an update on the New to Accepted edge, and a concrete OrderEvent
yields the initial admission with previous_status New. -/
theorem order_update_legal_transition_witness :
    ((OrderUpdateEvent.mk { sampleOrder with status := OrderStatus.Accepted }
        OrderStatus.New 0 42).previous_status,
     (OrderUpdateEvent.mk { sampleOrder with status := OrderStatus.Accepted }
        OrderStatus.New 0 42).order.status) ∈ specLegalEdges ∧
    (OrderUpdateEvent.mk sampleOrder OrderStatus.New 0 42).previous_status =
      OrderStatus.New := by
  constructor
  · refine (order_update_legal_transition
      { active_orders := Map.insert Map.empty 7 sampleOrder }
      sampleOrderEvent
      { order_id := 7, filled_quantity := 0, fill_price := 0,
        status := ExecutionStatus.Accepted, timestamp := 0,
        sequence_id := 42 } _).1 ?_
    exact List.Mem.head _
  · refine (order_update_legal_transition
      { active_orders := Map.empty } sampleOrderEvent
      { order_id := 7, filled_quantity := 0, fill_price := 0,
        status := ExecutionStatus.Accepted, timestamp := 0,
        sequence_id := 42 } _).2 ?_
    exact List.Mem.head _

/-- C8: every event a handler derives from a triggering event carries the
trigger's sequence id unchanged: the OrderEvent the risk engine builds from
a SignalEvent, the report(s) either execution engine builds from an
OrderEvent, the OrderUpdateEvents the tracker builds from an OrderEvent or
an ExecutionReportEvent, and the PositionUpdateEvents and
RiskViolationEvents the position engine builds from an
ExecutionReportEvent. -/
theorem sequence_id_propagation (limits : RiskLimits)
    (pes : PositionEngineState) (rs : RiskEngineState)
    (ts : OrderTrackerState) (sg : SignalEvent) (oe : OrderEvent)
    (re : ExecutionReportEvent) (now nowMs : Int) :
    (∀ o ∈ (RiskEngine.onSignal limits pes rs now sg).2,
      o.sequence_id = sg.sequence_id) ∧
    (∀ r ∈ MockExecutionEngine.onOrder nowMs oe,
      r.sequence_id = oe.sequence_id) ∧
    (∀ r ∈ ExecutionEngine.onOrder now oe,
      r.sequence_id = oe.sequence_id) ∧
    (∀ u ∈ (OrderTracker.onOrder ts oe).2,
      u.sequence_id = oe.sequence_id) ∧
    (∀ u ∈ (OrderTracker.onExecutionReport ts re).2,
      u.sequence_id = re.sequence_id) ∧
    (∀ p ∈ (PositionEngine.onFill limits pes re).2,
      PosEvent.seqid p = re.sequence_id) := by
  refine ⟨?_, ?_, ?_, ?_, ?_, ?_⟩
  · intro o ho
    unfold RiskEngine.onSignal at ho
    split at ho
    · simp at ho
    · split at ho
      · simp at ho
      · simp at ho
        subst ho
        rfl
  · intro r hr
    unfold MockExecutionEngine.onOrder at hr
    simp at hr
    subst hr
    rfl
  · intro r hr
    unfold ExecutionEngine.onOrder at hr
    simp at hr
    rcases hr with hr | hr <;> subst hr <;> rfl
  · intro u hu
    unfold OrderTracker.onOrder at hu
    simp at hu
    subst hu
    rfl
  · intro u hu
    unfold OrderTracker.onExecutionReport at hu
    split at hu
    · simp at hu
    · split at hu
      · split at hu <;>
        · simp at hu
          subst hu
          rfl
      · simp at hu
  · intro p hp
    unfold PositionEngine.onFill at hp
    split at hp
    · simp at hp
    · split at hp
      · simp at hp
      · split at hp
        · simp at hp
          rcases hp with hp | hp <;> subst hp <;> rfl
        · simp at hp
          subst hp
          rfl

/-- Witness for C8 at concrete inputs: one derived event from each of the
six handlers is in the corresponding output and carries the triggering
event's sequence id. -/
theorem sequence_id_propagation_witness :
    (({ order :=
          { id := 1, strategy_id := "s1", symbol := "AAPL",
            side := Side.Buy, quantity := 1, price := 150,
            status := OrderStatus.New, filled_quantity := 0 },
        timestamp := 0, sequence_id := 5 } : OrderEvent).sequence_id = 5) ∧
    (({ order_id := 7, filled_quantity := 1, fill_price := 100,
        status := ExecutionStatus.Filled, timestamp := ms_to_timestamp 0,
        sequence_id := 42 } : ExecutionReportEvent).sequence_id = 42) ∧
    (({ order_id := 7, filled_quantity := 0, fill_price := 0,
        status := ExecutionStatus.Accepted, timestamp := 0,
        sequence_id := 42 } : ExecutionReportEvent).sequence_id = 42) ∧
    (({ order := sampleOrder, previous_status := OrderStatus.New,
        timestamp := 0, sequence_id := 42 } :
        OrderUpdateEvent).sequence_id = 42) ∧
    (({ order := { sampleOrder with status := OrderStatus.Accepted },
        previous_status := OrderStatus.New, timestamp := 0,
        sequence_id := 42 } : OrderUpdateEvent).sequence_id = 42) ∧
    (PosEvent.seqid (PosEvent.update
      { position :=
          { symbol := "AAPL", net_quantity := 0, average_price := 100,
            realized_pnl := -600 },
        timestamp := 0, sequence_id := 3 }) = 3) := by
  have h := sequence_id_propagation defaultLimits emptyPES
    { halt_trading := false, next_order_id := 1 }
    { active_orders := Map.insert Map.empty 7 sampleOrder } sampleSignal
    sampleOrderEvent
    { order_id := 7, filled_quantity := 0, fill_price := 0,
      status := ExecutionStatus.Accepted, timestamp := 0,
      sequence_id := 42 } 0 0
  have hsig : ({ order :=
                   { id := 1, strategy_id := "s1", symbol := "AAPL",
                     side := Side.Buy, quantity := 1, price := 150,
                     status := OrderStatus.New, filled_quantity := 0 },
                 timestamp := 0, sequence_id := 5 } : OrderEvent) ∈
      (RiskEngine.onSignal defaultLimits emptyPES
        { halt_trading := false, next_order_id := 1 } 0 sampleSignal).2 := by
    unfold RiskEngine.onSignal currentAbsNet PositionEngine.position
      emptyPES Map.empty defaultLimits sampleSignal
    norm_num
  have htrk : ({ order := sampleOrder,
                 previous_status := OrderStatus.New, timestamp := 0,
                 sequence_id := 42 } : OrderUpdateEvent) ∈
      (OrderTracker.onOrder
        { active_orders := Map.insert Map.empty 7 sampleOrder }
        sampleOrderEvent).2 := List.Mem.head _
  have hfill := sequence_id_propagation defaultLimits samplePES
    { halt_trading := false, next_order_id := 1 }
    { active_orders := Map.insert Map.empty 7 sampleOrder } sampleSignal
    sampleOrderEvent sampleFillReport 0 0
  have hposm : PosEvent.update
      { position :=
          { symbol := "AAPL", net_quantity := 0, average_price := 100,
            realized_pnl := -600 },
        timestamp := 0, sequence_id := 3 } ∈
      (PositionEngine.onFill defaultLimits samplePES
        sampleFillReport).2 := by
    have hbase : fillBasePosition samplePES
        { symbol := "AAPL", side := Side.Sell } =
        { symbol := "AAPL", net_quantity := 10, average_price := 100,
          realized_pnl := 0 } := rfl
    have hqty : fillSignedQty { symbol := "AAPL", side := Side.Sell }
        sampleFillReport = -10 := rfl
    have hpx : sampleFillReport.fill_price = 40 := rfl
    have hpos : fillNewPosition samplePES sampleFillReport
        { symbol := "AAPL", side := Side.Sell } =
        { symbol := "AAPL", net_quantity := 0, average_price := 100,
          realized_pnl := -600 } := by
      unfold fillNewPosition
      rw [hbase, hqty, hpx]
      unfold applyFill
      norm_num [Position.mk.injEq]
    rw [onFill_publishes defaultLimits samplePES sampleFillReport
      { symbol := "AAPL", side := Side.Sell } rfl rfl, hpos]
    rw [if_pos (by norm_num [defaultLimits] :
      ({ symbol := "AAPL", net_quantity := 0, average_price := 100,
         realized_pnl := -600 } : Position).realized_pnl <
        defaultLimits.max_drawdown)]
    exact List.Mem.head _
  exact ⟨h.1 _ hsig, h.2.1 _ (List.Mem.head _), h.2.2.1 _ (List.Mem.head _),
    h.2.2.2.1 _ htrk, h.2.2.2.2.1 _ (List.Mem.head _),
    hfill.2.2.2.2.2 _ hposm⟩

/-- If a report's order id is not in the cache, onFill is a complete no-op:
the state is unchanged and nothing is published
(position_engine.cpp lines 84-89). -/
theorem onFill_no_cache (limits : RiskLimits) (s : PositionEngineState)
    (e : ExecutionReportEvent) (h : s.order_cache e.order_id = none) :
    PositionEngine.onFill limits s e = (s, []) := by
  unfold PositionEngine.onFill
  split
  · rfl
  · rw [h]

/-- Processing a Filled report for a cached order id erases the cache entry
(position_engine.cpp lines 138-140). -/
theorem onFill_cache_erased (limits : RiskLimits) (s : PositionEngineState)
    (e : ExecutionReportEvent) (info : OrderInfo)
    (h1 : e.status = ExecutionStatus.Filled)
    (h2 : s.order_cache e.order_id = some info) :
    (PositionEngine.onFill limits s e).1.order_cache e.order_id = none := by
  unfold PositionEngine.onFill
  split
  · next h => exact absurd h1 h
  · rw [h2]
    show ((s.order_cache).erase e.order_id) e.order_id = none
    unfold Map.erase
    rw [if_pos rfl]

/-- onFill never adds a cache entry: an id absent from the cache stays
absent. -/
theorem onFill_cache_mono (limits : RiskLimits) (s : PositionEngineState)
    (e : ExecutionReportEvent) (x : Nat)
    (h : s.order_cache x = none) :
    (PositionEngine.onFill limits s e).1.order_cache x = none := by
  unfold PositionEngine.onFill
  split
  · exact h
  · cases hlk : s.order_cache e.order_id with
    | none => exact h
    | some info =>
      show ((s.order_cache).erase e.order_id) x = none
      unfold Map.erase
      split <;> simp [h]

/-- An id absent from the cache stays absent across any input sequence that
contains no OrderEvent with that id. -/
theorem runOps_cache_none (limits : RiskLimits) :
    ∀ (ops : List PosOp) (s : PositionEngineState) (x : Nat),
      s.order_cache x = none →
      (∀ oe : OrderEvent, PosOp.order oe ∈ ops → oe.order.id ≠ x) →
      (PositionEngine.runOps limits s ops).order_cache x = none := by
  intro ops
  induction ops with
  | nil => intro s x h _; exact h
  | cons op rest ih =>
    intro s x h hops
    cases op with
    | order e =>
      have hid : e.order.id ≠ x := hops e (List.Mem.head _)
      refine ih _ x ?_ (fun oe hm => hops oe (List.Mem.tail _ hm))
      show (s.order_cache.insert e.order.id _) x = none
      unfold Map.insert
      rw [if_neg (fun hx => hid hx.symm)]
      exact h
    | report e =>
      exact ih _ x (onFill_cache_mono limits s e x h)
        (fun oe hm => hops oe (List.Mem.tail _ hm))

/-- C10: once the position engine has applied a Filled report for a cached
order id, any later report carrying that id — after any further inputs that
do not re-admit the id via an OrderEvent — leaves the whole state unchanged
and publishes no event, so an admitted order affects positions at most
once. -/
theorem fill_applied_once (limits : RiskLimits) (s : PositionEngineState)
    (e : ExecutionReportEvent) (info : OrderInfo) (ops : List PosOp)
    (rep : ExecutionReportEvent)
    (h1 : e.status = ExecutionStatus.Filled)
    (h2 : s.order_cache e.order_id = some info)
    (h3 : ∀ oe : OrderEvent, PosOp.order oe ∈ ops →
      oe.order.id ≠ e.order_id)
    (h4 : rep.order_id = e.order_id) :
    PositionEngine.onFill limits
        (PositionEngine.runOps limits
          (PositionEngine.onFill limits s e).1 ops) rep =
      (PositionEngine.runOps limits
        (PositionEngine.onFill limits s e).1 ops, []) := by
  apply onFill_no_cache
  rw [h4]
  exact runOps_cache_none limits ops _ e.order_id
    (onFill_cache_erased limits s e info h1 h2) h3

/-- Witness for C10: replaying sampleFillReport immediately after it was
applied changes nothing and publishes nothing. -/
theorem fill_applied_once_witness :
    PositionEngine.onFill defaultLimits
        (PositionEngine.runOps defaultLimits
          (PositionEngine.onFill defaultLimits samplePES
            sampleFillReport).1 []) sampleFillReport =
      (PositionEngine.runOps defaultLimits
        (PositionEngine.onFill defaultLimits samplePES
          sampleFillReport).1 [], []) :=
  fill_applied_once defaultLimits samplePES sampleFillReport
    { symbol := "AAPL", side := Side.Sell } [] sampleFillReport rfl rfl
    (by intro oe hm; simp at hm) rfl

end Quant







